import Mathlib

/-!
Verification of the `faces` simulation harness (Modes/Levels loop scheduler
and the phase-based statistics pipeline) against its specification.

The Go source is shallowly embedded: the stats directory tree is modelled as a
partial map from (mode, integer level value) to the Harmony series (a list of
rationals), together with the per-mode Current cache.  Integer level keys are
used because the source computes directory names via enum arithmetic
(`level - 1`), which can produce the out-of-range value -1 below Cycle.
-/

namespace Faces

/-- The looping modes (Stacks) for running and statistics (`Modes` in source). -/
inductive Modes where
  | Train
  | Test
deriving DecidableEq, Repr

/-- The looping levels for running and statistics (`Levels` in source):
Cycle < Trial < Epoch < Run < Expt, with Cycle the innermost. -/
inductive Levels where
  | Cycle
  | Trial
  | Epoch
  | Run
  | Expt
deriving DecidableEq, Repr

/-- The phase of stats processing for a given mode and level (`StatsPhase`):
accumulated values are reset at Start, added each Step. -/
inductive StatsPhase where
  | Start
  | Step
deriving DecidableEq, Repr

/-- The underlying integer value of a `Levels` enum, as used by the Go enum
arithmetic (`level - 1`) and by directory naming. -/
def Levels.toInt : Levels → Int
  | .Cycle => 0
  | .Trial => 1
  | .Epoch => 2
  | .Run => 3
  | .Expt => 4

/-- The level one below the given one (`level - 1` in Go), only ever applied by
`StatsStart` to levels strictly above Cycle. -/
def Levels.pred : Levels → Levels
  | .Cycle => .Cycle
  | .Trial => .Cycle
  | .Epoch => .Trial
  | .Run => .Epoch
  | .Expt => .Run

theorem Levels.toInt_inj (a b : Levels) : a.toInt = b.toInt ↔ a = b := by
  cases a <;> cases b <;> decide

/-- Errors surfaced by the stats pipeline.  `missingSeries` models reading a
series that was never created: the spec's Stats Directory Tree reads a
nonexistent path as an error, not a default value. -/
inductive StatError where
  | missingSeries
deriving DecidableEq, Repr

/-- The mean reduction (`stats.StatMean`), over exact rationals. -/
def statMean (xs : List ℚ) : ℚ := xs.sum / xs.length

/-- The slice of the tensorfs stats tree that the registered Harmony statistic
function reads and writes: `series m k` is the Harmony series stored under
directory `Stats/m/k` (`none` when the tensor was never created), and
`currentHarmony m` is the Harmony scalar in the `Current/m` cache. -/
structure StatsState where
  series : Modes → Int → Option (List ℚ)
  currentHarmony : Modes → Option ℚ

/-- Write (creating if needed) the Harmony series under `Stats/m/k`. -/
def setSeries (s : StatsState) (m : Modes) (k : Int) (v : List ℚ) : StatsState :=
  { s with series := fun m' k' => if m' = m ∧ k' = k then some v else s.series m' k' }

/-- Write the Harmony scalar in the `Current/m` cache
(`curModeDir.Float64(name, ndata).SetFloat1D(stat, di)`). -/
def setCurrent (s : StatsState) (m : Modes) (v : ℚ) : StatsState :=
  { s with currentHarmony := fun m' => if m' = m then some v else s.currentHarmony m' }

/-- The statistic function registered by `ConfigStats` for
`statNames = ["Harmony"]` (the `AddStat` closure at part_000:479-510).
On Start it truncates the level's own series to zero rows (`tsr.SetNumRows(0)`;
the plot-styler call is display metadata and not part of the stats state).
On Step it reads `subDir.Value(name)` where `subDir` is the directory of
`level - 1` (an error when that series was never created), takes the mean,
and appends the scalar to the level's own series; only the `case Cycle`
branch of the source's switch additionally writes the scalar to the Current
cache — the `default` branch does not. -/
def harmonyStatFunc (mode : Modes) (level : Levels) :
    StatsPhase → StatsState → Except StatError StatsState
  | .Start, s => .ok (setSeries s mode level.toInt [])
  | .Step, s =>
    match s.series mode (level.toInt - 1) with
    | none => .error .missingSeries
    | some sub =>
      let stat := statMean sub
      match level with
      | .Cycle =>
          .ok (setSeries (setCurrent s mode stat) mode level.toInt
            ((s.series mode level.toInt).getD [] ++ [stat]))
      | _ =>
          .ok (setSeries s mode level.toInt
            ((s.series mode level.toInt).getD [] ++ [stat]))

/-- `RunStats` runs the registered stat functions for the given mode, level and
phase.  The in-repository statistic is the Harmony function above; the other
registered closures delegate to external leabra stat helpers
(loop counters, trial name, layer state) that do not touch the Harmony series
or its Current entry, so the modelled state evolves by the Harmony function. -/
def RunStats (mode : Modes) (level : Levels) (phase : StatsPhase) (s : StatsState) :
    Except StatError StatsState :=
  harmonyStatFunc mode level phase s

/-- `StatsStart` (part_000:386-393): called by the looper at the start of a
level; returns immediately for levels at or below Cycle, otherwise runs the
Start phase for the next level down. -/
def StatsStart (mode : Modes) (level : Levels) (s : StatsState) :
    Except StatError StatsState :=
  if level.toInt ≤ Levels.Cycle.toInt then .ok s
  else RunStats mode level.pred .Start s

/-- `StatsStep` (part_000:397-405): called by the looper at each completed
iteration of a level; runs the Step phase at that same level.  The guard that
would skip the Cycle level is commented out in the source, so Cycle is not
excluded here.  The trailing `WriteToLog` call is external log I/O. -/
def StatsStep (mode : Modes) (level : Levels) (s : StatsState) :
    Except StatError StatsState :=
  RunStats mode level .Step s

/-- One stats-phase invocation: `RunStats(mode, level, phase)`. -/
abbrev PhaseEv := Modes × Levels × StatsPhase

/-- Apply one stats-phase invocation to the stats state. -/
def applyEv (s : StatsState) (e : PhaseEv) : Except StatError StatsState :=
  RunStats e.1 e.2.1 e.2.2 s

/-- Run a sequence of stats-phase invocations, propagating the first error
(a runtime stats error aborts the run). -/
def runTrace (s : StatsState) : List PhaseEv → Except StatError StatsState
  | [] => .ok s
  | e :: es =>
    match applyEv s e with
    | .ok s' => runTrace s' es
    | .error err => .error err

/-- The stats state before any stat function has run: no series exists and the
Current cache holds no Harmony value. -/
def initStats : StatsState :=
  { series := fun _ _ => none, currentHarmony := fun _ => none }

/-- Row count of the Harmony series at a given mode and level (zero when the
series was never created). -/
def seriesLen (s : StatsState) (m : Modes) (L : Levels) : Nat :=
  ((s.series m L.toInt).getD []).length

/-- Counter transition for one stats-phase invocation: a Start at `(m, L)`
resets the count, a Step at `(m, L)` increments it, anything else leaves it. -/
def stepCount (m : Modes) (L : Levels) (n : Nat) (e : PhaseEv) : Nat :=
  if e.1 = m ∧ e.2.1 = L then
    match e.2.2 with
    | .Start => 0
    | .Step => n + 1
  else n

/-- The number of Step invocations at `(m, L)` after the last Start invocation
at `(m, L)` (all of them when no Start at `(m, L)` occurred). -/
def stepsSinceLastStart (m : Modes) (L : Levels) (tr : List PhaseEv) : Nat :=
  ((tr.reverse.takeWhile fun e => !(decide (e = (m, L, StatsPhase.Start))))).countP
    (fun e => decide (e = (m, L, StatsPhase.Step)))

theorem seriesLen_setSeries (s : StatsState) (m' : Modes) (k : Int) (v : List ℚ)
    (m : Modes) (L : Levels) :
    seriesLen (setSeries s m' k v) m L =
      if m = m' ∧ L.toInt = k then v.length else seriesLen s m L := by
  simp only [seriesLen, setSeries]
  split <;> simp

theorem series_setCurrent (s : StatsState) (m' : Modes) (v : ℚ) :
    (setCurrent s m' v).series = s.series := rfl

theorem applyEv_seriesLen (s s' : StatsState) (e : PhaseEv)
    (h : applyEv s e = .ok s') (m : Modes) (L : Levels) :
    seriesLen s' m L = stepCount m L (seriesLen s m L) e := by
  obtain ⟨m', L', ph⟩ := e
  cases ph with
  | Start =>
    simp only [applyEv, RunStats, harmonyStatFunc, Except.ok.injEq] at h
    subst h
    rw [seriesLen_setSeries]
    simp only [stepCount]
    by_cases h1 : m = m' <;> by_cases h2 : L = L' <;>
      simp [h1, h2, Levels.toInt_inj, eq_comm]
  | Step =>
    simp only [applyEv, RunStats, harmonyStatFunc] at h
    cases hs : s.series m' (L'.toInt - 1) with
    | none => rw [hs] at h; exact absurd h (by simp)
    | some sub =>
      rw [hs] at h
      have hlen : ∀ t : StatsState, t.series = s.series →
          seriesLen (setSeries t m' L'.toInt
            ((s.series m' L'.toInt).getD [] ++ [statMean sub])) m L =
          stepCount m L (seriesLen s m L) (m', L', StatsPhase.Step) := by
        intro t ht
        rw [seriesLen_setSeries]
        simp only [stepCount, List.length_append, List.length_cons, List.length_nil]
        by_cases h1 : m = m' <;> by_cases h2 : L = L' <;>
          simp [h1, h2, Levels.toInt_inj, eq_comm, seriesLen, ht]
      cases L' with
      | Cycle =>
        simp only [Except.ok.injEq] at h
        subst h
        exact hlen (setCurrent s m' (statMean sub)) rfl
      | Trial =>
        simp only [Except.ok.injEq] at h
        subst h
        exact hlen s rfl
      | Epoch =>
        simp only [Except.ok.injEq] at h
        subst h
        exact hlen s rfl
      | Run =>
        simp only [Except.ok.injEq] at h
        subst h
        exact hlen s rfl
      | Expt =>
        simp only [Except.ok.injEq] at h
        subst h
        exact hlen s rfl

theorem runTrace_seriesLen (tr : List PhaseEv) : ∀ s s' : StatsState,
    runTrace s tr = .ok s' → ∀ m L,
    seriesLen s' m L = tr.foldl (stepCount m L) (seriesLen s m L) := by
  induction tr with
  | nil =>
    intro s s' h m L
    simp only [runTrace, Except.ok.injEq] at h
    subst h
    rfl
  | cons e es ih =>
    intro s s' h m L
    simp only [runTrace] at h
    cases he : applyEv s e with
    | error err => rw [he] at h; exact absurd h (by simp)
    | ok s₁ =>
      rw [he] at h
      rw [List.foldl_cons, ← applyEv_seriesLen s s₁ e he m L]
      exact ih s₁ s' h m L

theorem foldl_stepCount_eq_stepsSince (m : Modes) (L : Levels) (tr : List PhaseEv) :
    tr.foldl (stepCount m L) 0 = stepsSinceLastStart m L tr := by
  induction tr using List.reverseRecOn with
  | nil => rfl
  | append_singleton es e ih =>
    rw [List.foldl_append, List.foldl_cons, List.foldl_nil, ih]
    unfold stepsSinceLastStart
    rw [List.reverse_append, List.reverse_singleton, List.singleton_append,
      List.takeWhile_cons]
    by_cases hse : e = (m, L, StatsPhase.Start)
    · subst hse
      simp [stepCount]
    · rw [if_pos (show (!decide (e = (m, L, StatsPhase.Start))) = true by simp [hse])]
      rw [List.countP_cons]
      by_cases hst : e = (m, L, StatsPhase.Step)
      · subst hst
        simp [stepCount]
      · obtain ⟨em, eL, eph⟩ := e
        have hnot : ¬(em = m ∧ eL = L) := by
          intro ⟨h1, h2⟩
          cases eph with
          | Start => exact hse (by rw [h1, h2])
          | Step => exact hst (by rw [h1, h2])
        simp [stepCount, hnot, hst]

theorem statsState_ext (a b : StatsState) (h1 : a.series = b.series)
    (h2 : a.currentHarmony = b.currentHarmony) : a = b := by
  cases a; cases b; cases h1; cases h2; rfl

theorem setSeries_setSeries (s : StatsState) (m : Modes) (k : Int) (v w : List ℚ) :
    setSeries (setSeries s m k v) m k w = setSeries s m k w := by
  refine statsState_ext _ _ ?_ rfl
  funext m' k'
  by_cases h : m' = m ∧ k' = k <;> simp [setSeries, h]

/-- A concrete stats state for exercising the Step phase above Cycle: the
Cycle-level Harmony series holds a single value 2 for Test mode, no other
series exists, and the Current cache is empty. -/
def c1CexState : StatsState :=
  { series := fun m k => if m = Modes.Test ∧ k = 0 then some [2] else none,
    currentHarmony := fun _ => none }

/-- The Start invocations performed by `StatsInit` over the Test stack's level
order (Epoch, Trial, Cycle). -/
def statsInitTrace : List PhaseEv :=
  [(Modes.Test, Levels.Epoch, StatsPhase.Start),
   (Modes.Test, Levels.Trial, StatsPhase.Start),
   (Modes.Test, Levels.Cycle, StatsPhase.Start)]

/-- The stats state right after `StatsInit`: every level of the Test stack has
an empty Harmony series. -/
def statsAfterInit : StatsState :=
  ((runTrace initStats statsInitTrace).toOption).getD initStats

/-- A concrete phase trace: Start at Cycle and Trial, then two Trial Steps. -/
def c2wTrace : List PhaseEv :=
  [(Modes.Test, Levels.Cycle, StatsPhase.Start),
   (Modes.Test, Levels.Trial, StatsPhase.Start),
   (Modes.Test, Levels.Trial, StatsPhase.Step),
   (Modes.Test, Levels.Trial, StatsPhase.Step)]

/-- The stats state reached by running `c2wTrace` from the initial state. -/
def c2wState : StatsState :=
  ((runTrace initStats c2wTrace).toOption).getD initStats

/-- C1 (counterexample): at mode Test, level Trial (above Cycle), phase Step,
from a state whose Cycle series is [2], the registered statistic function
succeeds but does not write the reduced scalar to the Current cache, refuting
the claim that every Step above Cycle writes the scalar to Current. -/
theorem harmonyStep_current_not_written :
    ¬ (∀ s' : StatsState,
        harmonyStatFunc Modes.Test Levels.Trial .Step c1CexState = .ok s' →
        s'.currentHarmony Modes.Test = some (statMean [2])) := by
  intro h
  have h2 := h (setSeries c1CexState Modes.Test Levels.Trial.toInt
      ((c1CexState.series Modes.Test Levels.Trial.toInt).getD [] ++ [statMean [2]])) rfl
  exact Option.noConfusion (show (none : Option ℚ) = some (statMean [2]) from h2)

/-- C1 (amended): for every mode and every level above Cycle, at phase Step
the registered statistic function reduces the immediately-inner level's series
with the mean, appends the scalar to the level's own series, and leaves the
Current cache unchanged (the Current write happens only in the Cycle branch). -/
theorem harmonyStep_aboveCycle (mode : Modes) (level : Levels)
    (hL : level ≠ Levels.Cycle) (s : StatsState) (xs : List ℚ)
    (hs : s.series mode (level.toInt - 1) = some xs) :
    harmonyStatFunc mode level .Step s =
      .ok (setSeries s mode level.toInt
        ((s.series mode level.toInt).getD [] ++ [statMean xs])) ∧
    ∀ m : Modes,
      (setSeries s mode level.toInt
        ((s.series mode level.toInt).getD [] ++ [statMean xs])).currentHarmony m =
      s.currentHarmony m := by
  refine ⟨?_, fun m => rfl⟩
  cases level with
  | Cycle => exact absurd rfl hL
  | Trial => simp only [harmonyStatFunc, Levels.toInt] at hs ⊢; rw [hs]
  | Epoch => simp only [harmonyStatFunc, Levels.toInt] at hs ⊢; rw [hs]
  | Run => simp only [harmonyStatFunc, Levels.toInt] at hs ⊢; rw [hs]
  | Expt => simp only [harmonyStatFunc, Levels.toInt] at hs ⊢; rw [hs]

theorem harmonyStep_aboveCycle_witness :
    harmonyStatFunc Modes.Test Levels.Trial .Step c1CexState =
      .ok (setSeries c1CexState Modes.Test Levels.Trial.toInt
        ((c1CexState.series Modes.Test Levels.Trial.toInt).getD [] ++ [statMean [2]])) ∧
    ∀ m : Modes,
      (setSeries c1CexState Modes.Test Levels.Trial.toInt
        ((c1CexState.series Modes.Test Levels.Trial.toInt).getD [] ++ [statMean [2]])).currentHarmony m =
      c1CexState.currentHarmony m :=
  harmonyStep_aboveCycle Modes.Test Levels.Trial (by decide) c1CexState [2] rfl

/-- C2: for every mode and level, after any successfully executed sequence of
Start and Step phase invocations from the initial stats state, the row count
of the Harmony series at that level equals the number of Step phases executed
at that level since that level's last Start phase. -/
theorem stats_rowCount_eq_steps (tr : List PhaseEv) (s : StatsState)
    (h : runTrace initStats tr = .ok s) (m : Modes) (L : Levels) :
    seriesLen s m L = stepsSinceLastStart m L tr := by
  have h1 := runTrace_seriesLen tr initStats s h m L
  rw [h1, show seriesLen initStats m L = 0 from rfl, foldl_stepCount_eq_stepsSince]

theorem stats_rowCount_eq_steps_witness :
    runTrace initStats c2wTrace = .ok c2wState ∧
    seriesLen c2wState Modes.Test Levels.Trial =
      stepsSinceLastStart Modes.Test Levels.Trial c2wTrace ∧
    stepsSinceLastStart Modes.Test Levels.Trial c2wTrace = 2 :=
  ⟨rfl, stats_rowCount_eq_steps c2wTrace c2wState rfl Modes.Test Levels.Trial, rfl⟩

/-- C3: the claim that Cycle is excluded from the recursive reduction fails on
the code.  The Start path does exclude Cycle (`StatsStart` returns unchanged
state at Cycle, and no series ever exists below Cycle), but the Cycle guard in
`StatsStep` is commented out, so a Cycle-level Step runs the statistic
function, which tries to reduce the series of level value -1 (below Cycle)
and fails with a missing-series error — exactly what the source comment
"note: will fail for Cycle" predicts. -/
theorem cycleStep_reads_level_below_cycle :
    StatsStart Modes.Test Levels.Cycle statsAfterInit = .ok statsAfterInit ∧
    statsAfterInit.series Modes.Test (Levels.Cycle.toInt - 1) = none ∧
    StatsStep Modes.Test Levels.Cycle statsAfterInit = .error .missingSeries :=
  ⟨rfl, rfl, rfl⟩

/-- C6: the Start phase of the registered statistic function is idempotent:
from any state it truncates the level's own series to zero rows regardless of
prior length, and a second consecutive Start with no intervening Step yields
exactly the same stats state as a single Start. -/
theorem statsStart_idempotent (mode : Modes) (level : Levels) (s : StatsState) :
    harmonyStatFunc mode level .Start s = .ok (setSeries s mode level.toInt []) ∧
    (setSeries s mode level.toInt []).series mode level.toInt = some [] ∧
    harmonyStatFunc mode level .Start (setSeries s mode level.toInt []) =
      .ok (setSeries s mode level.toInt []) := by
  refine ⟨rfl, by simp [setSeries], ?_⟩
  show Except.ok (setSeries (setSeries s mode level.toInt []) mode level.toInt []) = _
  rw [setSeries_setSeries]

/-! ## RunNoGUI (part_000:590-606) -/

/-- The `Config.Run` parameters used by `RunNoGUI`: the starting run index
(`Run.Run`) and the number of runs (`Run.Runs`). -/
structure RunConfig where
  run : Nat
  runs : Nat
deriving DecidableEq, Repr

/-- The externally visible actions a run driver can perform, in order.
`loopsRunAct` is the scheduler invocation (`Loops.Run(mode)`) that actually
executes a stack; `setTrialCounterCurMax cur max` is
`Loops.Loop(Test, Trial).Counter.SetCurMaxPlusN(cur, max - cur)`, which only
sets the Trial counter's current value and maximum. -/
inductive RunAct where
  | initAct
  | setRunNameAct (name : String)
  | openLogFilesAct (netName runName : String)
  | printRunningAct (runs startRun : Nat)
  | setTrialCounterCurMax (cur max : Nat)
  | loopsRunAct (mode : Modes)
  | closeLogFilesAct
deriving DecidableEq, Repr

/-- `RunNoGUI` as the sequence of actions the source performs: Init, set the
run name, open log files keyed by net and run name, print the run banner, set
the Test Trial counter to cover `[run, run + runs)`, and close the log files.
No `Loops.Run` call appears anywhere in the body. -/
def RunNoGUI (cfg : RunConfig) (netName runName : String) : List RunAct :=
  [RunAct.initAct,
   RunAct.setRunNameAct runName,
   RunAct.openLogFilesAct netName runName,
   RunAct.printRunningAct cfg.runs cfg.run,
   RunAct.setTrialCounterCurMax cfg.run (cfg.run + cfg.runs),
   RunAct.closeLogFilesAct]

/-- C4: at the concrete configuration Run=0, Runs=3, `RunNoGUI` calls Init
first, opens log files keyed by run name before the counter setup and closes
them after, and announces 3 runs — but it never invokes the scheduler
(`Loops.Run`) for any mode, so the Test stack's Trial loop is never driven,
contradicting the claim that RunNoGUI drives it for the configured run count. -/
theorem runNoGUI_never_drives_loop :
    RunNoGUI ⟨0, 3⟩ "Faces" "Base_000" =
      [RunAct.initAct,
       RunAct.setRunNameAct "Base_000",
       RunAct.openLogFilesAct "Faces" "Base_000",
       RunAct.printRunningAct 3 0,
       RunAct.setTrialCounterCurMax 0 3,
       RunAct.closeLogFilesAct] ∧
    RunAct.loopsRunAct Modes.Test ∉ RunNoGUI ⟨0, 3⟩ "Faces" "Base_000" ∧
    RunAct.loopsRunAct Modes.Train ∉ RunNoGUI ⟨0, 3⟩ "Faces" "Base_000" := by
  refine ⟨rfl, ?_, ?_⟩ <;> decide

/-! ## Random seeding (part_000:135-149, 256-260) -/

/-- Seed-table errors: `seedExhausted` models the SeedExhaustedError of the
spec (run index at or beyond the seed-table capacity). -/
inductive SeedError where
  | seedExhausted
deriving DecidableEq, Repr

/-- Modelled from the spec: the fixed random-seed table built by
`RandSeeds.Init(100)` in `ConfigSim` ("max 100 runs").  The external randx
library is not part of the source tree; the spec only fixes that the table has
capped size and fixed contents, modelled here as the 100 seeds 1..100. -/
def seedsInit (n : Nat) : List Nat :=
  (List.range n).map (fun i => i + 1)

/-- The seed table of this simulation: capacity 100 (`ss.RandSeeds.Init(100)`). -/
def seedTable : List Nat := seedsInit 100

/-- Modelled from the spec: `Seeds.Set(idx)` — "seed[i] is taken from a fixed
table of capped size; requesting an index ≥ cap fails" with
SeedExhaustedError; within the table it deterministically applies the stored
seed. -/
def seedsSet (seeds : List Nat) (idx : Nat) : Except SeedError Nat :=
  match seeds[idx]? with
  | some sd => Except.ok sd
  | none => Except.error SeedError.seedExhausted

/-- `InitRandSeed(run)` from the source: both `RandSeeds.Set(run)` calls (the
global one and the one targeting `Net.Rand`) read the same table entry at the
same index, so the applied seed is the returned value. -/
def InitRandSeed (run : Nat) : Except SeedError Nat :=
  seedsSet seedTable run

/-- C5: `InitRandSeed(i)` is a deterministic pure function of the run index —
for i below the capacity 100 it always applies the fixed table seed (i + 1),
and for i ≥ 100 it fails with the seed-exhaustion error instead of seeding. -/
theorem initRandSeed_deterministic (i : Nat) :
    (i < 100 → InitRandSeed i = Except.ok (i + 1)) ∧
    (100 ≤ i → InitRandSeed i = Except.error SeedError.seedExhausted) := by
  constructor
  · intro hi
    simp [InitRandSeed, seedsSet, seedTable, seedsInit, List.getElem?_range, hi]
  · intro hi
    have hnone : (seedTable[i]? : Option Nat) = none := by
      rw [List.getElem?_eq_none]
      simpa [seedTable, seedsInit] using hi
    simp [InitRandSeed, seedsSet, hnone]

theorem initRandSeed_deterministic_witness :
    InitRandSeed 0 = Except.ok 1 ∧
    InitRandSeed 100 = Except.error SeedError.seedExhausted :=
  ⟨(initRandSeed_deterministic 0).1 (by decide),
   (initRandSeed_deterministic 100).2 (by decide)⟩

/-! ## SetInput (part_000:213-229) -/

/-- The two leabra layer types toggled by `SetInput`: an `InputLayer` is a
driver of external input, a `CompareLayer` only compares against it. -/
inductive LayerType where
  | InputLayer
  | CompareLayer
deriving DecidableEq, Repr

/-- The slice of the Sim state `SetInput` can see: the per-layer type of the
network, the scheduler's loop stacks with their per-level iteration counts,
and the paths present in the Stats directory tree. -/
structure SimInputState where
  layerType : String → LayerType
  loops : List (Modes × List (Levels × Nat))
  statsPaths : List (List String)

/-- `SetInput(topDown)`: with topDown the Input layer becomes a comparison
layer and Emotion, Gender, Identity become input (driver) layers; otherwise
the reverse.  Nothing else is assigned. -/
def SetInput (topDown : Bool) (s : SimInputState) : SimInputState :=
  if topDown then
    { s with layerType := fun nm =>
        if nm = "Input" then LayerType.CompareLayer
        else if nm = "Emotion" ∨ nm = "Gender" ∨ nm = "Identity" then LayerType.InputLayer
        else s.layerType nm }
  else
    { s with layerType := fun nm =>
        if nm = "Input" then LayerType.InputLayer
        else if nm = "Emotion" ∨ nm = "Gender" ∨ nm = "Identity" then LayerType.CompareLayer
        else s.layerType nm }

/-- A concrete Sim slice: bottom-up layer types, the Test stack with
Epoch(1) and Trial(12), and one stats path. -/
def simInputEx : SimInputState :=
  { layerType := fun nm => if nm = "Input" then LayerType.InputLayer else LayerType.CompareLayer,
    loops := [(Modes.Test, [(Levels.Epoch, 1), (Levels.Trial, 12)])],
    statsPaths := [["Stats", "Test", "Trial", "Harmony"]] }

/-- C7: `SetInput` with either topDown value leaves the loop stacks, their
iteration counts, and the stats-tree paths unchanged, leaves every layer other
than Input, Emotion, Gender, Identity untouched, and sets exactly those four
layers' driver/comparison types according to topDown. -/
theorem setInput_frame (td : Bool) (s : SimInputState) (nm : String)
    (h : nm ∉ ["Input", "Emotion", "Gender", "Identity"]) :
    (SetInput td s).loops = s.loops ∧
    (SetInput td s).statsPaths = s.statsPaths ∧
    (SetInput td s).layerType nm = s.layerType nm ∧
    (SetInput td s).layerType "Input" =
      (if td then LayerType.CompareLayer else LayerType.InputLayer) ∧
    (SetInput td s).layerType "Emotion" =
      (if td then LayerType.InputLayer else LayerType.CompareLayer) ∧
    (SetInput td s).layerType "Gender" =
      (if td then LayerType.InputLayer else LayerType.CompareLayer) ∧
    (SetInput td s).layerType "Identity" =
      (if td then LayerType.InputLayer else LayerType.CompareLayer) := by
  simp only [List.mem_cons, List.mem_singleton, not_or] at h
  obtain ⟨h1, h2, h3, h4⟩ := h
  cases td <;> simp [SetInput, h1, h2, h3, h4]

theorem setInput_frame_witness :
    (SetInput true simInputEx).loops = simInputEx.loops ∧
    (SetInput true simInputEx).statsPaths = simInputEx.statsPaths ∧
    (SetInput true simInputEx).layerType "Hidden" = simInputEx.layerType "Hidden" ∧
    (SetInput true simInputEx).layerType "Input" =
      (if true then LayerType.CompareLayer else LayerType.InputLayer) ∧
    (SetInput true simInputEx).layerType "Emotion" =
      (if true then LayerType.InputLayer else LayerType.CompareLayer) ∧
    (SetInput true simInputEx).layerType "Gender" =
      (if true then LayerType.InputLayer else LayerType.CompareLayer) ∧
    (SetInput true simInputEx).layerType "Identity" =
      (if true then LayerType.InputLayer else LayerType.CompareLayer) :=
  setInput_frame true simInputEx "Hidden" (by decide)

/-! ## OpenPatterns (part_000:335-351) -/

/-- Contents of a pattern table object: freshly allocated and empty, loaded
from faces.tsv, or loaded from partial_faces.tsv. -/
inductive TableData where
  | emptyTable
  | facesData
  | partFacesData
deriving DecidableEq, Repr

/-- The pattern-related slice of the Sim: a heap of table objects addressed by
index, with the two table-pointer fields `Patterns` and `PartialPatterns`
(here `patterns` and `partPatterns`). -/
structure PatternsState where
  heap : List TableData
  patterns : Nat
  partPatterns : Nat
deriving DecidableEq, Repr

/-- `OpenPatterns`: allocates a fresh table `dt` and loads faces.tsv into it;
then rebinds `dt` to the `PartialPatterns` table and loads partial_faces.tsv
into that object; finally assigns `ss.Patterns = dt`, i.e. the
partial-patterns table.  The freshly allocated faces table is left referenced
by no Sim field. -/
def OpenPatterns (s : PatternsState) : PatternsState :=
  let heap1 := s.heap ++ [TableData.facesData]
  let heap2 := heap1.set s.partPatterns TableData.partFacesData
  { heap := heap2, patterns := s.partPatterns, partPatterns := s.partPatterns }

/-- C8: after `OpenPatterns`, the `Patterns` and `PartialPatterns` fields are
the same table object, that object holds the data loaded from
partial_faces.tsv, and the table loaded from faces.tsv (at the fresh heap
address) is referenced by neither field. -/
theorem openPatterns_aliasing (s : PatternsState)
    (h : s.partPatterns < s.heap.length) :
    (OpenPatterns s).patterns = (OpenPatterns s).partPatterns ∧
    ((OpenPatterns s).heap[(OpenPatterns s).patterns]? = some TableData.partFacesData) ∧
    ((OpenPatterns s).heap[s.heap.length]? = some TableData.facesData) ∧
    (OpenPatterns s).patterns ≠ s.heap.length ∧
    (OpenPatterns s).partPatterns ≠ s.heap.length := by
  have hne : s.partPatterns ≠ s.heap.length := Nat.ne_of_lt h
  have hlt1 : s.partPatterns < (s.heap ++ [TableData.facesData]).length := by
    simp only [List.length_append, List.length_singleton]
    omega
  refine ⟨rfl, ?_, ?_, hne, hne⟩
  · simp only [OpenPatterns, List.getElem?_set, hlt1]
    simp
  · simp only [OpenPatterns]
    rw [List.getElem?_set_ne hne]
    rw [List.getElem?_append_right (Nat.le_refl _)]
    simp

theorem openPatterns_aliasing_witness :
    (OpenPatterns ⟨[TableData.emptyTable, TableData.emptyTable], 0, 1⟩).patterns =
      (OpenPatterns ⟨[TableData.emptyTable, TableData.emptyTable], 0, 1⟩).partPatterns ∧
    ((OpenPatterns ⟨[TableData.emptyTable, TableData.emptyTable], 0, 1⟩).heap[
        (OpenPatterns ⟨[TableData.emptyTable, TableData.emptyTable], 0, 1⟩).patterns]? =
      some TableData.partFacesData) ∧
    ((OpenPatterns ⟨[TableData.emptyTable, TableData.emptyTable], 0, 1⟩).heap[
        ([TableData.emptyTable, TableData.emptyTable] : List TableData).length]? =
      some TableData.facesData) ∧
    (OpenPatterns ⟨[TableData.emptyTable, TableData.emptyTable], 0, 1⟩).patterns ≠
      ([TableData.emptyTable, TableData.emptyTable] : List TableData).length ∧
    (OpenPatterns ⟨[TableData.emptyTable, TableData.emptyTable], 0, 1⟩).partPatterns ≠
      ([TableData.emptyTable, TableData.emptyTable] : List TableData).length :=
  openPatterns_aliasing ⟨[TableData.emptyTable, TableData.emptyTable], 0, 1⟩ (by decide)

/-! ## SetRunName / RunName (part_000:423-433) -/

/-- The state `SetRunName` and `RunName` touch: the "RunName" string slot of
the Current cache, the configured starting run (`Config.Run.Run`), and the
external `Params.RunName` naming function (kept abstract as a field). -/
structure RunNameState where
  currentRunName : Option String
  cfgRun : Nat
  paramsRunName : Nat → String

/-- `SetRunName`: computes the overall run name from the params naming
function at the configured starting run, stores it in the Current cache under
"RunName", and returns it. -/
def SetRunName (s : RunNameState) : String × RunNameState :=
  let runName := s.paramsRunName s.cfgRun
  (runName, { s with currentRunName := some runName })

/-- `RunName`: reads the "RunName" string slot of the Current cache (an
auto-created slot reads as the empty string). -/
def RunName (s : RunNameState) : String :=
  s.currentRunName.getD ""

/-- C9: for any configuration state, `RunName` after `SetRunName` returns
exactly the string that `SetRunName` stored in the Current cache under
"RunName" and returned. -/
theorem setRunName_runName_roundtrip (s : RunNameState) :
    RunName (SetRunName s).2 = (SetRunName s).1 ∧
    (SetRunName s).2.currentRunName = some ((SetRunName s).1) :=
  ⟨rfl, rfl⟩

/-! ## NetViewUpdater (part_000:263-268) -/

/-- The netview-update fields a Sim owns: only `TestUpdate` exists (there is
no train-mode update field in the struct). -/
inductive UpdaterRef where
  | testUpdate
deriving DecidableEq, Repr

/-- The integer value of a mode enum (`mode.Int64()`). -/
def modesInt : Modes → Int
  | Modes.Train => 0
  | Modes.Test => 1

/-- `NetViewUpdater(mode)`: compares the mode's integer value against Test's
and returns a pointer to the `TestUpdate` field in both branches. -/
def NetViewUpdater (modeVal : Int) : UpdaterRef :=
  if modeVal = modesInt Modes.Test then UpdaterRef.testUpdate else UpdaterRef.testUpdate

/-- C10: `NetViewUpdater` returns the `TestUpdate` field for every mode value
(including Train's), and its result is independent of the mode passed in. -/
theorem netViewUpdater_const (v w : Int) :
    NetViewUpdater v = UpdaterRef.testUpdate ∧
    NetViewUpdater (modesInt Modes.Train) = UpdaterRef.testUpdate ∧
    NetViewUpdater v = NetViewUpdater w := by
  unfold NetViewUpdater
  refine ⟨?_, rfl, ?_⟩ <;> split <;> simp

end Faces
